import Mathlib

/-!
Shallow embedding of `src/quickpicks/remotesQuickPick.ts`.

The file under verification builds quick-pick options for opening or
copying a link to a git artifact on a remote hosting provider:
  - `OpenRemoteCommandQuickPickItem` (one option per remote),
  - `OpenRemotesCommandQuickPickItem` (a single consolidated option), and
  - `RemotesQuickPick.show` (the selection session).

External collaborators referenced by the file but not part of the given
sources (`GlyphChars`, `Strings.pad`, `paths.basename`,
`GitService.shortenSha`, `getNameFromRemoteResource`, the git data types
and the quick-pick presentation capability) are modelled from the spec;
their definitions carry a doc comment saying so.

JavaScript faults (dereferencing `undefined`, e.g. through the `!`
non-null assertions on `remote.provider!`) are modelled by `Option`:
a constructor or function that would throw returns `none`.  Mutation of
the caller's `resource` object (the documented `sha` overwrite) is
modelled by returning the possibly-updated resource from `describe`.
-/

/-- Modelled from the spec: glyph constant `Dash` (em dash) from the
repository's `constants.ts`, which is not among the given sources. -/
def GlyphChars.Dash : String := "—"

/-- Modelled from the spec: glyph constant `Dot` (bullet). -/
def GlyphChars.Dot : String := "•"

/-- Modelled from the spec: glyph constant `Ellipsis`, the ellipsis glyph
that terminates the consolidated option's label. -/
def GlyphChars.Ellipsis : String := "…"

/-- Modelled from the spec: glyph constant `Space` (no-break space). -/
def GlyphChars.Space : String := " "

/-- Modelled from the spec: `Strings.pad` from the repository's string
utilities (not among the given sources): surrounds `s` with `before`
and `after` copies of the no-break-space padding character. -/
def Strings.pad (s : String) (before after : Nat) : String :=
  String.mk (List.replicate before ' ') ++ s ++ String.mk (List.replicate after ' ')

/-- Modelled from the spec: the base-filename utility (`paths.basename`),
"path stripped to final path segment". -/
def paths.basename (p : String) : String :=
  (p.splitOn "/").getLastD ""

/-- Modelled from the spec: the sha-shortening utility
(`GitService.shortenSha`), "a fixed-length prefix". -/
def GitService.shortenSha (sha : String) : String := sha.take 7

/-- Modelled from the spec: the sha-shortening utility applied to a
possibly-absent sha (an absent sha shortens to the empty string). -/
def GitService.shortenShaOpt (sha : Option String) : String :=
  match sha with
  | none => ""
  | some s => GitService.shortenSha s

/-- Modelled from the spec: a hosting-service provider with a display
`name` and a repository `path` (slug). The `open`/`copy` side effects are
out of scope. -/
structure RemoteProvider where
  name : String
  path : String
deriving DecidableEq, Repr

/-- Modelled from the spec: one configured remote, with an optional
provider and a `default` flag (uniqueness of the flag is not enforced). -/
structure GitRemote where
  provider : Option RemoteProvider
  default : Bool
deriving DecidableEq, Repr

/-- Modelled from the spec: the fields of the associated commit record
that `remotesQuickPick.ts` reads (`isFile`, `status`, `sha`,
`previousSha`); the commit type itself is not among the given sources. -/
structure GitLogCommit where
  isFile : Bool
  status : String
  sha : String
  previousSha : String
deriving DecidableEq, Repr

/-- Modelled from the spec: the commit's shortened current sha. -/
def GitLogCommit.shortSha (c : GitLogCommit) : String :=
  GitService.shortenSha c.sha

/-- Modelled from the spec: the commit's shortened previous sha. -/
def GitLogCommit.previousShortSha (c : GitLogCommit) : String :=
  GitService.shortenSha c.previousSha

/-- Modelled from the spec: the string value of the `Branch` variant tag
of `RemoteResourceType` (a string enum not among the given sources). -/
def RemoteResourceType.Branch : String := "branch"

/-- Modelled from the spec: the `Branches` variant tag. -/
def RemoteResourceType.Branches : String := "branches"

/-- Modelled from the spec: the `Commit` variant tag. -/
def RemoteResourceType.Commit : String := "commit"

/-- Modelled from the spec: the `File` variant tag. -/
def RemoteResourceType.File : String := "file"

/-- Modelled from the spec: the `Repo` variant tag. -/
def RemoteResourceType.Repo : String := "repo"

/-- Modelled from the spec: the `Revision` variant tag. -/
def RemoteResourceType.Revision : String := "revision"

/-- Modelled from the spec: a remote resource — a loosely-typed record
differentiated by a string `type` tag with ad hoc payload fields, as the
spec describes the source's data model.  `sha` and `commit` are the
optional fields whose absence the describer guards. -/
structure RemoteResource where
  type : String
  branch : String := ""
  fileName : String := ""
  sha : Option String := none
  commit : Option GitLogCommit := none
deriving DecidableEq, Repr

/-- The commands enum values used by this file (`Commands.OpenInRemote`). -/
inductive Commands where
  | openInRemote
deriving DecidableEq, Repr

/-- The presentable option unit.  `plain` stands for a generic
`CommandQuickPickItem` (such as a caller-supplied go-back option);
`openRemote` is an `OpenRemoteCommandQuickPickItem` with its stored
`remote`/`resource`/`clipboard` payload; `openRemotes` is an
`OpenRemotesCommandQuickPickItem`, bound to a command id and to the
`OpenInRemoteCommandArgs` payload fields `remotes`, `resource`,
`goBackCommand`. -/
inductive CommandQuickPickItem : Type where
  | plain (label description : String)
  | openRemote (label description : String) (remote : GitRemote)
      (resource : RemoteResource) (clipboard : Bool)
  | openRemotes (label description : String) (command : Commands)
      (remotes : List GitRemote) (resource : RemoteResource)
      (goBackCommand : Option CommandQuickPickItem)

/-- The fallback description of a `Revision` resource when no associated
file-commit record is available (`remotesQuickPick.ts` lines 88–93):
base file name, suffixed with the shortened sha only when present and
nonempty (string truthiness of `shortFileSha`). -/
def revisionFallbackDescription (resource : RemoteResource) : String :=
  let shortFileSha :=
    match resource.sha with
    | none => ""
    | some s => GitService.shortenSha s
  "$(file-text) " ++ paths.basename resource.fileName ++
    (if shortFileSha = "" then ""
     else " in " ++ GlyphChars.Space ++ "$(git-commit) " ++ shortFileSha)

/-- The resource describer: the `switch (resource.type)` of
`OpenRemotesCommandQuickPickItem`'s constructor (lines 50–99).  The in-place
`resource.sha` assignments of the `Revision` case are modelled by
returning the updated resource alongside the description string. -/
def describe (resource : RemoteResource) : RemoteResource × String :=
  if resource.type = RemoteResourceType.Branch then
    (resource, "$(git-branch) " ++ resource.branch)
  else if resource.type = RemoteResourceType.Branches then
    (resource, "$(git-branch) Branches")
  else if resource.type = RemoteResourceType.Commit then
    (resource, "$(git-commit) " ++ GitService.shortenShaOpt resource.sha)
  else if resource.type = RemoteResourceType.File then
    (resource, "$(file-text) " ++ paths.basename resource.fileName)
  else if resource.type = RemoteResourceType.Repo then
    (resource, "$(repo) Repository")
  else if resource.type = RemoteResourceType.Revision then
    match resource.commit with
    | some c =>
      if c.isFile then
        if c.status = "D" then
          ({ resource with sha := some c.previousSha },
            "$(file-text) " ++ paths.basename resource.fileName ++ " in " ++
              GlyphChars.Space ++ "$(git-commit) " ++ c.previousShortSha ++
              " (deleted in " ++ GlyphChars.Space ++ "$(git-commit) " ++
              c.shortSha ++ ")")
        else
          ({ resource with sha := some c.sha },
            "$(file-text) " ++ paths.basename resource.fileName ++ " in " ++
              GlyphChars.Space ++ "$(git-commit) " ++ c.shortSha)
      else (resource, revisionFallbackDescription resource)
    | none => (resource, revisionFallbackDescription resource)
  else (resource, "")

/-- Modelled from the spec: `getNameFromRemoteResource` from the git
service (not among the given sources) — the short noun phrase for a
resource variant. -/
def getNameFromRemoteResource (resource : RemoteResource) : String :=
  if resource.type = RemoteResourceType.Branch then "Branch"
  else if resource.type = RemoteResourceType.Branches then "Branches"
  else if resource.type = RemoteResourceType.Commit then "Commit"
  else if resource.type = RemoteResourceType.File then "File"
  else if resource.type = RemoteResourceType.Repo then "Repository"
  else if resource.type = RemoteResourceType.Revision then "File"
  else ""

/-- The consolidated builder's remote selection (lines 101–107):
with more than one remote, `remotes.find(r => r.default)`; with exactly
one remote, that remote; otherwise none. -/
def selectedRemote (remotes : List GitRemote) : Option GitRemote :=
  if remotes.length > 1 then remotes.find? (fun r => r.default)
  else if remotes.length = 1 then remotes.head?
  else none

/-- The `remotes.every(r => r.provider !== undefined && r.provider.name ===
remote!.provider!.name)` check of line 133, with JavaScript's in-order
short-circuit semantics: an element without a provider stops the scan with
`false` before the right-hand side is evaluated; evaluating the right-hand
side when `remote0` has no provider is the `undefined` dereference fault,
modelled as `none`. -/
def everySameProviderName (remote0 : GitRemote) : List GitRemote → Option Bool
  | [] => some true
  | r :: rs =>
    match r.provider with
    | none => some false
    | some p =>
      match remote0.provider with
      | none => none
      | some p0 =>
        if p.name = p0.name then everySameProviderName remote0 rs
        else some false

/-- The `OpenRemotesCommandQuickPickItem` constructor (lines 46–150):
describes the resource (with the documented `sha` overwrite), selects a
remote, and builds either the selected-remote option or the consolidated
"on <provider>…" option.  `none` models a JavaScript fault: the
`remote.provider!` dereference when a selected remote has no provider, or
the `remotes[0]`/`remote!.provider!.name` dereference on an empty list. -/
def OpenRemotesCommandQuickPickItem.build (remotes : List GitRemote)
    (resource0 : RemoteResource) (goBackCommand : Option CommandQuickPickItem) :
    Option CommandQuickPickItem :=
  let name := getNameFromRemoteResource resource0
  let described := describe resource0
  let resource := described.1
  let description := described.2
  match selectedRemote remotes with
  | some remote =>
    match remote.provider with
    | none => none
    | some p =>
      some (.openRemotes
        ("$(link-external) Open " ++ name ++ " on " ++ p.name)
        (Strings.pad GlyphChars.Dash 2 3 ++ " $(repo) " ++ p.path ++ " " ++
          Strings.pad GlyphChars.Dot 1 1 ++ " " ++ description)
        Commands.openInRemote remotes resource goBackCommand)
  | none =>
    match remotes with
    | [] => none
    | remote0 :: _ =>
      match everySameProviderName remote0 remotes with
      | none => none
      | some allSame =>
        let providerName? : Option String :=
          if allSame then remote0.provider.map (fun p => p.name)
          else some "Remote"
        match providerName? with
        | none => none
        | some providerName =>
          some (.openRemotes
            ("$(link-external) Open " ++ name ++ " on " ++ providerName ++
              GlyphChars.Ellipsis)
            (Strings.pad GlyphChars.Dash 2 3 ++ " " ++ description)
            Commands.openInRemote remotes resource goBackCommand)

/-- The `OpenRemoteCommandQuickPickItem` constructor (lines 16–43): one
option for one remote.  `none` models the `remote.provider!` dereference
fault when the remote has no provider. -/
def OpenRemoteCommandQuickPickItem.build (remote : GitRemote)
    (resource : RemoteResource) (clipboard : Bool) :
    Option CommandQuickPickItem :=
  match remote.provider with
  | none => none
  | some p =>
    some (.openRemote
      (if clipboard then
        "$(link-external) Copy " ++ getNameFromRemoteResource resource ++
          " Url to Clipboard from " ++ p.name
       else
        "$(link-external) Open " ++ getNameFromRemoteResource resource ++
          " on " ++ p.name)
      (Strings.pad GlyphChars.Dash 2 3 ++ " $(repo) " ++ p.path)
      remote resource clipboard)

/-- The `remotes.map(r => new OpenRemoteCommandQuickPickItem(...))` of
line 161, in list order; a fault while building any element (a remote
without a provider) faults the whole construction, as the thrown
exception would. -/
def buildPerRemoteItems (remotes : List GitRemote) (resource : RemoteResource)
    (clipboard : Bool) : Option (List CommandQuickPickItem) :=
  match remotes with
  | [] => some []
  | r :: rs =>
    match OpenRemoteCommandQuickPickItem.build r resource clipboard with
    | none => none
    | some it =>
      match buildPerRemoteItems rs resource clipboard with
      | none => none
      | some its => some (it :: its)

/-- `RemotesQuickPick.show` (lines 153–180).  The external presentation
capability (`window.showQuickPick`) is the parameter `showQuickPick`,
taking the item list and the placeholder and returning the chosen item or
the cancellation sentinel (`none`).  The outer `Option` models a fault
while building items; the inner `Option` is the function's own
`undefined`-on-cancellation result, returned without invoking the chosen
item. -/
def RemotesQuickPick.show (remotes : List GitRemote) (placeHolder : String)
    (resource : RemoteResource) (clipboard : Bool)
    (goBackCommand : Option CommandQuickPickItem)
    (showQuickPick : List CommandQuickPickItem → String → Option CommandQuickPickItem) :
    Option (Option CommandQuickPickItem) :=
  match buildPerRemoteItems remotes resource clipboard with
  | none => none
  | some opts =>
    let items :=
      match goBackCommand with
      | some g => g :: opts
      | none => opts
    some (showQuickPick items placeHolder)

/-- `t` occurs as a substring of `s`, exhibited by a decomposition. -/
def strContains (s t : String) : Prop := ∃ a b, s = a ++ t ++ b

theorem find?_first_default (pre : List GitRemote) (r : GitRemote)
    (post : List GitRemote) (hr : r.default = true)
    (hpre : ∀ x ∈ pre, x.default = false) :
    (pre ++ r :: post).find? (fun x => x.default) = some r := by
  induction pre with
  | nil => simp [List.find?, hr]
  | cons a as ih =>
    have ha : a.default = false := hpre a (by simp)
    rw [List.cons_append, List.find?_cons_of_neg _ (by simp [ha])]
    exact ih fun x hx => hpre x (by simp [hx])

theorem everySame_of_all (remote0 : GitRemote) (p0 : RemoteProvider)
    (h0 : remote0.provider = some p0) (l : List GitRemote)
    (h : ∀ r ∈ l, ∃ p, r.provider = some p ∧ p.name = p0.name) :
    everySameProviderName remote0 l = some true := by
  induction l with
  | nil => rfl
  | cons a as ih =>
    obtain ⟨p, hp, hpn⟩ := h a (by simp)
    have hrec := ih fun x hx => h x (by simp [hx])
    simp [everySameProviderName, hp, h0, hpn, hrec]

theorem everySame_all_of_true (remote0 : GitRemote) (p0 : RemoteProvider)
    (h0 : remote0.provider = some p0) (l : List GitRemote)
    (h : everySameProviderName remote0 l = some true) :
    ∀ r ∈ l, ∃ p, r.provider = some p ∧ p.name = p0.name := by
  induction l with
  | nil => intro r hr; exact absurd hr (List.not_mem_nil r)
  | cons a as ih =>
    intro r hr
    cases hp : a.provider with
    | none => simp [everySameProviderName, hp] at h
    | some p =>
      simp only [everySameProviderName, hp, h0] at h
      by_cases hpn : p.name = p0.name
      · rw [if_pos hpn] at h
        rcases List.mem_cons.mp hr with h1 | h1
        · subst h1; exact ⟨p, hp, hpn⟩
        · exact ih h r h1
      · rw [if_neg hpn] at h; cases h

theorem everySame_ne_none (remote0 : GitRemote) (p0 : RemoteProvider)
    (h0 : remote0.provider = some p0) (l : List GitRemote) :
    everySameProviderName remote0 l ≠ none := by
  induction l with
  | nil => intro h; cases h
  | cons a as ih =>
    intro hcontra
    cases hp : a.provider with
    | none => simp [everySameProviderName, hp] at hcontra
    | some p =>
      simp only [everySameProviderName, hp, h0] at hcontra
      split at hcontra
      · exact ih hcontra
      · cases hcontra

theorem everySame_head_ne_none (r0 : GitRemote) (rest : List GitRemote) :
    everySameProviderName r0 (r0 :: rest) ≠ none := by
  cases hp : r0.provider with
  | none => simp [everySameProviderName, hp]
  | some p0 => exact everySame_ne_none r0 p0 hp (r0 :: rest)

/-- C1: for the consolidated builder's remote selection, with more than one
remote the selected remote is the first in list order whose `default` flag
is true and no remote is selected when none is flagged; with exactly one
remote, that remote is selected unconditionally, regardless of its flag. -/
theorem C1_consolidated_selection (remotes : List GitRemote) :
    (∀ pre r post, remotes = pre ++ r :: post → remotes.length > 1 →
      r.default = true → (∀ x ∈ pre, x.default = false) →
      selectedRemote remotes = some r)
    ∧ (remotes.length > 1 → (∀ r ∈ remotes, r.default = false) →
      selectedRemote remotes = none)
    ∧ (∀ r, remotes = [r] → selectedRemote remotes = some r) := by
  refine ⟨?_, ?_, ?_⟩
  · intro pre r post hsplit hlen hr hpre
    subst hsplit
    unfold selectedRemote
    rw [if_pos hlen]
    exact find?_first_default pre r post hr hpre
  · intro hlen hnone
    unfold selectedRemote
    rw [if_pos hlen]
    exact List.find?_eq_none.mpr fun x hx => by simp [hnone x hx]
  · intro r h
    subst h
    simp [selectedRemote]

/-- Witness for C1: in a two-remote list where only the second remote is
flagged default, the selection picks that second remote (pre = the first
remote, all unflagged). -/
theorem C1_consolidated_selection_witness :
    selectedRemote
        [{ provider := some { name := "GitHub", path := "org/repo" }, default := false },
         { provider := some { name := "GitLab", path := "org/repo2" }, default := true }] =
      some { provider := some { name := "GitLab", path := "org/repo2" }, default := true } :=
  (C1_consolidated_selection _).1
    [{ provider := some { name := "GitHub", path := "org/repo" }, default := false }]
    { provider := some { name := "GitLab", path := "org/repo2" }, default := true }
    [] rfl (by decide) rfl (by decide)

/-- C4 (amended): the describer leaves the resource unchanged except that
for a `Revision` resource with an associated file-commit record the `sha`
field is overwritten — with the commit's `previousSha` when the commit's
status is "D" (deleted), and with the commit's own `sha` otherwise.  The
remotes list is never written to (every embedded operation reads it only).
The original claim allowed the overwrite only in the deletion case. -/
theorem C4_describe_frame (r : RemoteResource) :
    (describe r).1 = r ∨
      (r.type = RemoteResourceType.Revision ∧ ∃ c, r.commit = some c ∧
        c.isFile = true ∧
        (describe r).1 =
          { r with sha := some (if c.status = "D" then c.previousSha else c.sha) }) := by
  by_cases h1 : r.type = RemoteResourceType.Branch
  · exact Or.inl (by simp [describe, h1])
  by_cases h2 : r.type = RemoteResourceType.Branches
  · exact Or.inl (by simp [describe, RemoteResourceType.Branch,
      RemoteResourceType.Branches, h2])
  by_cases h3 : r.type = RemoteResourceType.Commit
  · exact Or.inl (by simp [describe, RemoteResourceType.Branch,
      RemoteResourceType.Branches, RemoteResourceType.Commit, h3])
  by_cases h4 : r.type = RemoteResourceType.File
  · exact Or.inl (by simp [describe, RemoteResourceType.Branch,
      RemoteResourceType.Branches, RemoteResourceType.Commit,
      RemoteResourceType.File, h4])
  by_cases h5 : r.type = RemoteResourceType.Repo
  · exact Or.inl (by simp [describe, RemoteResourceType.Branch,
      RemoteResourceType.Branches, RemoteResourceType.Commit,
      RemoteResourceType.File, RemoteResourceType.Repo, h5])
  by_cases h6 : r.type = RemoteResourceType.Revision
  · cases hcm : r.commit with
    | none =>
      exact Or.inl (by simp [describe, RemoteResourceType.Branch,
        RemoteResourceType.Branches, RemoteResourceType.Commit,
        RemoteResourceType.File, RemoteResourceType.Repo,
        RemoteResourceType.Revision, h6, hcm])
    | some c =>
      by_cases hf : c.isFile = true
      · refine Or.inr ⟨h6, c, rfl, hf, ?_⟩
        by_cases hd : c.status = "D"
        · simp [describe, RemoteResourceType.Branch, RemoteResourceType.Branches,
            RemoteResourceType.Commit, RemoteResourceType.File,
            RemoteResourceType.Repo, RemoteResourceType.Revision, h6, hcm, hf, hd]
        · simp [describe, RemoteResourceType.Branch, RemoteResourceType.Branches,
            RemoteResourceType.Commit, RemoteResourceType.File,
            RemoteResourceType.Repo, RemoteResourceType.Revision, h6, hcm, hf, hd]
      · exact Or.inl (by simp [describe, RemoteResourceType.Branch,
          RemoteResourceType.Branches, RemoteResourceType.Commit,
          RemoteResourceType.File, RemoteResourceType.Repo,
          RemoteResourceType.Revision, h6, hcm, hf])
  · exact Or.inl (by simp [describe, h1, h2, h3, h4, h5, h6])

/-- Counterexample to C4 as stated: a `Revision` resource whose associated
file commit has status "M" (not deleted) still has its `sha` overwritten by
the describer (from "zzz999" to the commit's sha "ccc333"), so the sha
overwrite is not confined to the deletion case. -/
theorem C4_mutation_counterexample :
    (describe
        { type := "revision", fileName := "a/b.txt", sha := some "zzz999",
          commit := some
            { isFile := true, status := "M", sha := "ccc333",
              previousSha := "bbb222" } }).1.sha = some "ccc333" ∧
    (describe
        { type := "revision", fileName := "a/b.txt", sha := some "zzz999",
          commit := some
            { isFile := true, status := "M", sha := "ccc333",
              previousSha := "bbb222" } }).1 ≠
      ({ type := "revision", fileName := "a/b.txt", sha := some "zzz999",
         commit := some
           { isFile := true, status := "M", sha := "ccc333",
             previousSha := "bbb222" } } : RemoteResource) ∧
    ({ isFile := true, status := "M", sha := "ccc333",
       previousSha := "bbb222" } : GitLogCommit).status ≠ "D" := by
  refine ⟨rfl, ?_, by decide⟩
  intro h
  have h2 := congrArg RemoteResource.sha h
  exact absurd h2 (by decide)

/-- C3: for a `Revision` resource whose associated commit is a file record,
if the commit's status is "D" the describer sets the resource's sha to the
commit's `previousSha` and the description contains the shortened previous
sha and, inside a " (deleted in …)" annotation, the shortened current sha;
otherwise it sets the resource's sha to the commit's `sha` and the
description contains that commit's shortened sha. -/
theorem C3_describe_revision_commit (r : RemoteResource) (c : GitLogCommit)
    (ht : r.type = RemoteResourceType.Revision) (hc : r.commit = some c)
    (hf : c.isFile = true) :
    (c.status = "D" →
      (describe r).1.sha = some c.previousSha ∧
      strContains (describe r).2 (GitService.shortenSha c.previousSha) ∧
      strContains (describe r).2
        (" (deleted in " ++ GlyphChars.Space ++ "$(git-commit) " ++
          GitService.shortenSha c.sha ++ ")"))
    ∧ (¬ c.status = "D" →
      (describe r).1.sha = some c.sha ∧
      strContains (describe r).2 (GitService.shortenSha c.sha)) := by
  constructor
  · intro hd
    have hdesc : describe r =
        ({ r with sha := some c.previousSha },
          "$(file-text) " ++ paths.basename r.fileName ++ " in " ++
            GlyphChars.Space ++ "$(git-commit) " ++ c.previousShortSha ++
            " (deleted in " ++ GlyphChars.Space ++ "$(git-commit) " ++
            c.shortSha ++ ")") := by
      simp [describe, RemoteResourceType.Branch, RemoteResourceType.Branches,
        RemoteResourceType.Commit, RemoteResourceType.File,
        RemoteResourceType.Repo, RemoteResourceType.Revision, ht, hc, hf, hd]
    refine ⟨by rw [hdesc], ?_, ?_⟩
    · refine ⟨"$(file-text) " ++ paths.basename r.fileName ++ " in " ++
        GlyphChars.Space ++ "$(git-commit) ",
        " (deleted in " ++ GlyphChars.Space ++ "$(git-commit) " ++
          c.shortSha ++ ")", ?_⟩
      rw [hdesc]
      simp only [GitLogCommit.previousShortSha]
      simp [String.append_assoc]
    · refine ⟨"$(file-text) " ++ paths.basename r.fileName ++ " in " ++
        GlyphChars.Space ++ "$(git-commit) " ++ c.previousShortSha, "", ?_⟩
      rw [hdesc]
      simp only [GitLogCommit.shortSha]
      simp [String.append_assoc]
  · intro hd
    have hdesc : describe r =
        ({ r with sha := some c.sha },
          "$(file-text) " ++ paths.basename r.fileName ++ " in " ++
            GlyphChars.Space ++ "$(git-commit) " ++ c.shortSha) := by
      simp [describe, RemoteResourceType.Branch, RemoteResourceType.Branches,
        RemoteResourceType.Commit, RemoteResourceType.File,
        RemoteResourceType.Repo, RemoteResourceType.Revision, ht, hc, hf, hd]
    refine ⟨by rw [hdesc], ?_⟩
    refine ⟨"$(file-text) " ++ paths.basename r.fileName ++ " in " ++
      GlyphChars.Space ++ "$(git-commit) ", "", ?_⟩
    rw [hdesc]
    simp only [GitLogCommit.shortSha]
    simp [String.append_assoc]

/-- Witness for C3: the spec's deleted-revision example (previous sha
"aaa111", current sha "bbb222") and its not-deleted example (commit sha
"ccc333"), with the theorem's hypotheses discharged at those inputs. -/
theorem C3_describe_revision_commit_witness :
    ((describe
        { type := "revision", fileName := "a/b.txt", sha := some "bbb222",
          commit := some
            { isFile := true, status := "D", sha := "bbb222",
              previousSha := "aaa111" } }).1.sha = some "aaa111" ∧
      strContains
        (describe
          { type := "revision", fileName := "a/b.txt", sha := some "bbb222",
            commit := some
              { isFile := true, status := "D", sha := "bbb222",
                previousSha := "aaa111" } }).2
        (GitService.shortenSha "aaa111")) ∧
    (describe
        { type := "revision", fileName := "a/b.txt", sha := some "abc",
          commit := some
            { isFile := true, status := "M", sha := "ccc333",
              previousSha := "bbb222" } }).1.sha = some "ccc333" := by
  have h1 := C3_describe_revision_commit
    { type := "revision", fileName := "a/b.txt", sha := some "bbb222",
      commit := some
        { isFile := true, status := "D", sha := "bbb222",
          previousSha := "aaa111" } }
    { isFile := true, status := "D", sha := "bbb222", previousSha := "aaa111" }
    rfl rfl rfl
  have h2 := C3_describe_revision_commit
    { type := "revision", fileName := "a/b.txt", sha := some "abc",
      commit := some
        { isFile := true, status := "M", sha := "ccc333",
          previousSha := "bbb222" } }
    { isFile := true, status := "M", sha := "ccc333", previousSha := "bbb222" }
    rfl rfl rfl
  exact ⟨⟨(h1.1 rfl).1, (h1.1 rfl).2.1⟩, (h2.2 (by decide)).1⟩

/-- C7: the describer is a total function over all resources (it is a Lean
function returning a `String`, with every optional-field access guarded in
its definition): a resource whose variant tag is none of the six known
tags yields the empty description, and a `Revision` resource with both
optional fields (`commit`, `sha`) absent still yields a description (the
bare base file name) rather than failing. -/
theorem C7_describe_total (r : RemoteResource) :
    (¬ r.type = RemoteResourceType.Branch → ¬ r.type = RemoteResourceType.Branches →
      ¬ r.type = RemoteResourceType.Commit → ¬ r.type = RemoteResourceType.File →
      ¬ r.type = RemoteResourceType.Repo → ¬ r.type = RemoteResourceType.Revision →
      (describe r).2 = "")
    ∧ (r.type = RemoteResourceType.Revision → r.commit = none → r.sha = none →
      (describe r).2 = "$(file-text) " ++ paths.basename r.fileName) := by
  constructor
  · intro h1 h2 h3 h4 h5 h6
    simp [describe, h1, h2, h3, h4, h5, h6]
  · intro ht hcm hs
    simp [describe, RemoteResourceType.Branch, RemoteResourceType.Branches,
      RemoteResourceType.Commit, RemoteResourceType.File,
      RemoteResourceType.Repo, RemoteResourceType.Revision, ht, hcm, hs,
      revisionFallbackDescription]

/-- Witness for C7: an unrecognized tag ("unknown") yields the empty
description, and a `Revision` with no commit and no sha yields just the
base file name. -/
theorem C7_describe_total_witness :
    (describe { type := "unknown" }).2 = "" ∧
    (describe { type := "revision", fileName := "x/y.txt" }).2 =
      "$(file-text) " ++ paths.basename "x/y.txt" := by
  constructor
  · exact (C7_describe_total { type := "unknown" }).1 (by decide) (by decide)
      (by decide) (by decide) (by decide) (by decide)
  · exact (C7_describe_total { type := "revision", fileName := "x/y.txt" }).2
      rfl rfl rfl

/-- C2: with more than one remote and none flagged default, the
consolidated option's label uses the shared provider name when every
remote has a provider with the same name, and the generic "Remote"
otherwise; in both cases the label ends with the ellipsis glyph (the
equality exhibits it as the final appended component) and the description
is the padded-dash separator followed by the describer's long text, with
no provider path. -/
theorem C2_consolidated_no_default (remotes : List GitRemote) (r0 : GitRemote)
    (rest : List GitRemote) (resource : RemoteResource)
    (goBack : Option CommandQuickPickItem)
    (hsplit : remotes = r0 :: rest) (hlen : remotes.length > 1)
    (hnd : ∀ r ∈ remotes, r.default = false) :
    (∀ nm, (∀ r ∈ remotes, ∃ p, r.provider = some p ∧ p.name = nm) →
      OpenRemotesCommandQuickPickItem.build remotes resource goBack =
        some (.openRemotes
          ("$(link-external) Open " ++ getNameFromRemoteResource resource ++
            " on " ++ nm ++ GlyphChars.Ellipsis)
          (Strings.pad GlyphChars.Dash 2 3 ++ " " ++ (describe resource).2)
          Commands.openInRemote remotes (describe resource).1 goBack))
    ∧ ((¬ ∃ nm, ∀ r ∈ remotes, ∃ p, r.provider = some p ∧ p.name = nm) →
      OpenRemotesCommandQuickPickItem.build remotes resource goBack =
        some (.openRemotes
          ("$(link-external) Open " ++ getNameFromRemoteResource resource ++
            " on " ++ "Remote" ++ GlyphChars.Ellipsis)
          (Strings.pad GlyphChars.Dash 2 3 ++ " " ++ (describe resource).2)
          Commands.openInRemote remotes (describe resource).1 goBack)) := by
  have hsel : selectedRemote remotes = none := by
    unfold selectedRemote
    rw [if_pos hlen]
    exact List.find?_eq_none.mpr fun x hx => by simp [hnd x hx]
  subst hsplit
  constructor
  · intro nm hall
    obtain ⟨p0, hp0, hp0nm⟩ := hall r0 (by simp)
    have hev : everySameProviderName r0 (r0 :: rest) = some true := by
      refine everySame_of_all r0 p0 hp0 (r0 :: rest) fun x hx => ?_
      obtain ⟨p, hp, hpn⟩ := hall x hx
      exact ⟨p, hp, by rw [hpn, hp0nm]⟩
    simp [OpenRemotesCommandQuickPickItem.build, hsel, hev, hp0, hp0nm]
  · intro hnall
    have hne : everySameProviderName r0 (r0 :: rest) ≠ none :=
      everySame_head_ne_none r0 rest
    have hnt : everySameProviderName r0 (r0 :: rest) ≠ some true := by
      intro ht
      cases hp : r0.provider with
      | none => simp [everySameProviderName, hp] at ht
      | some p0 =>
        exact hnall ⟨p0.name, everySame_all_of_true r0 p0 hp (r0 :: rest) ht⟩
    cases hev : everySameProviderName r0 (r0 :: rest) with
    | none => exact absurd hev hne
    | some b =>
      cases b with
      | true => exact absurd hev hnt
      | false => simp [OpenRemotesCommandQuickPickItem.build, hsel, hev]

/-- Witness for C2: three remotes all with provider name "GitHub", none
default, give the shared-name label "… on GitHub…" (ellipsis-terminated),
with the describer's long text in the description. -/
theorem C2_consolidated_no_default_witness :
    OpenRemotesCommandQuickPickItem.build
        [{ provider := some { name := "GitHub", path := "org/repo" }, default := false },
         { provider := some { name := "GitHub", path := "org/fork" }, default := false },
         { provider := some { name := "GitHub", path := "org/copy" }, default := false }]
        { type := "file", fileName := "a/b.txt" } none =
      some (.openRemotes
        ("$(link-external) Open " ++
          getNameFromRemoteResource { type := "file", fileName := "a/b.txt" } ++
          " on " ++ "GitHub" ++ GlyphChars.Ellipsis)
        (Strings.pad GlyphChars.Dash 2 3 ++ " " ++
          (describe { type := "file", fileName := "a/b.txt" }).2)
        Commands.openInRemote
        [{ provider := some { name := "GitHub", path := "org/repo" }, default := false },
         { provider := some { name := "GitHub", path := "org/fork" }, default := false },
         { provider := some { name := "GitHub", path := "org/copy" }, default := false }]
        (describe { type := "file", fileName := "a/b.txt" }).1 none) := by
  refine (C2_consolidated_no_default _
    { provider := some { name := "GitHub", path := "org/repo" }, default := false }
    [{ provider := some { name := "GitHub", path := "org/fork" }, default := false },
     { provider := some { name := "GitHub", path := "org/copy" }, default := false }]
    { type := "file", fileName := "a/b.txt" } none rfl (by decide) (by decide)).1
    "GitHub" ?_
  intro r hr
  simp only [List.mem_cons, List.not_mem_nil, or_false] at hr
  rcases hr with h | h | h <;> subst h
  · exact ⟨{ name := "GitHub", path := "org/repo" }, rfl, rfl⟩
  · exact ⟨{ name := "GitHub", path := "org/fork" }, rfl, rfl⟩
  · exact ⟨{ name := "GitHub", path := "org/copy" }, rfl, rfl⟩

/-- C6: when the consolidated builder has a selected remote (the first
default among several, or the single remote) with provider `p`, the
option's label is the glyph-prefixed "Open <name> on <p.name>" and its
description carries the provider path followed by the describer's long
text; and in every branch that produces an option, the option is bound to
the `OpenInRemote` command with a payload carrying the full remotes list,
the (described) resource and the back-navigation option. -/
theorem C6_selected_option_and_payload (remotes : List GitRemote)
    (resource : RemoteResource) (goBack : Option CommandQuickPickItem) :
    (∀ remote p, selectedRemote remotes = some remote → remote.provider = some p →
      OpenRemotesCommandQuickPickItem.build remotes resource goBack =
        some (.openRemotes
          ("$(link-external) Open " ++ getNameFromRemoteResource resource ++
            " on " ++ p.name)
          (Strings.pad GlyphChars.Dash 2 3 ++ " $(repo) " ++ p.path ++ " " ++
            Strings.pad GlyphChars.Dot 1 1 ++ " " ++ (describe resource).2)
          Commands.openInRemote remotes (describe resource).1 goBack))
    ∧ (∀ item, OpenRemotesCommandQuickPickItem.build remotes resource goBack = some item →
      ∃ lbl dsc, item =
        .openRemotes lbl dsc Commands.openInRemote remotes (describe resource).1 goBack) := by
  constructor
  · intro remote p hsel hp
    simp [OpenRemotesCommandQuickPickItem.build, hsel, hp]
  · intro item hitem
    simp only [OpenRemotesCommandQuickPickItem.build] at hitem
    split at hitem
    · split at hitem
      · cases hitem
      · cases hitem
        exact ⟨_, _, rfl⟩
    · split at hitem
      · cases hitem
      · split at hitem
        · cases hitem
        · split at hitem
          · cases hitem
          · cases hitem
            exact ⟨_, _, rfl⟩

/-- Witness for C6: a single configured remote (provider "GitHub", path
"org/repo") and a `Repo` resource give the option labelled
"… Open Repository on GitHub" whose description carries "org/repo" and
"Repository", bound to `OpenInRemote` with the full payload. -/
theorem C6_selected_option_and_payload_witness :
    OpenRemotesCommandQuickPickItem.build
        [{ provider := some { name := "GitHub", path := "org/repo" }, default := false }]
        { type := "repo" } none =
      some (.openRemotes
        ("$(link-external) Open " ++ getNameFromRemoteResource { type := "repo" } ++
          " on " ++ "GitHub")
        (Strings.pad GlyphChars.Dash 2 3 ++ " $(repo) " ++ "org/repo" ++ " " ++
          Strings.pad GlyphChars.Dot 1 1 ++ " " ++ (describe { type := "repo" }).2)
        Commands.openInRemote
        [{ provider := some { name := "GitHub", path := "org/repo" }, default := false }]
        (describe { type := "repo" }).1 none) :=
  (C6_selected_option_and_payload
      [{ provider := some { name := "GitHub", path := "org/repo" }, default := false }]
      { type := "repo" } none).1
    { provider := some { name := "GitHub", path := "org/repo" }, default := false }
    { name := "GitHub", path := "org/repo" } rfl rfl

/-- Counterexample to C10 as stated: a two-remote list whose first remote
lacks a provider, none flagged default (the no-default branch), does not
fault — the short-circuiting same-provider-name scan returns false at the
first remote before the `remote!.provider!.name` dereference, and the
generic "Remote…" consolidated option is produced. -/
theorem C10_headless_no_fault_counterexample :
    (OpenRemotesCommandQuickPickItem.build
        [{ provider := none, default := false },
         { provider := some { name := "GitHub", path := "org/repo" }, default := false }]
        { type := "repo" } none).isSome = true := rfl

/-- C10 (amended): the consolidated builder faults on the empty remotes
list (`remotes[0]` is absent and `remote!.provider!.name` is dereferenced
after the vacuously-true scan); but when the no-default branch is taken on
a list whose first remote lacks a provider, the same-name scan
short-circuits to false at that first remote, so the builder does not
fault and produces the generic "Remote…"-labelled option. -/
theorem C10_build_empty_faults_headless_does_not (resource : RemoteResource)
    (goBack : Option CommandQuickPickItem) :
    OpenRemotesCommandQuickPickItem.build [] resource goBack = none
    ∧ (∀ r0 rest, (r0 :: rest).length > 1 → (∀ r ∈ r0 :: rest, r.default = false) →
      r0.provider = none →
      OpenRemotesCommandQuickPickItem.build (r0 :: rest) resource goBack =
        some (.openRemotes
          ("$(link-external) Open " ++ getNameFromRemoteResource resource ++
            " on " ++ "Remote" ++ GlyphChars.Ellipsis)
          (Strings.pad GlyphChars.Dash 2 3 ++ " " ++ (describe resource).2)
          Commands.openInRemote (r0 :: rest) (describe resource).1 goBack)) := by
  constructor
  · simp [OpenRemotesCommandQuickPickItem.build, selectedRemote]
  · intro r0 rest hlen hnd hp0
    have hsel : selectedRemote (r0 :: rest) = none := by
      unfold selectedRemote
      rw [if_pos hlen]
      exact List.find?_eq_none.mpr fun x hx => by simp [hnd x hx]
    have hev : everySameProviderName r0 (r0 :: rest) = some false := by
      simp [everySameProviderName, hp0]
    simp [OpenRemotesCommandQuickPickItem.build, hsel, hev]

/-- Witness for C10 (amended): the empty list faults, and the concrete
headless list `[no-provider, GitHub]` yields the "Remote…" option. -/
theorem C10_build_empty_faults_headless_does_not_witness :
    OpenRemotesCommandQuickPickItem.build [] { type := "repo" } none = none
    ∧ OpenRemotesCommandQuickPickItem.build
        [{ provider := none, default := false },
         { provider := some { name := "GitHub", path := "org/repo" }, default := false }]
        { type := "repo" } none =
      some (.openRemotes
        ("$(link-external) Open " ++ getNameFromRemoteResource { type := "repo" } ++
          " on " ++ "Remote" ++ GlyphChars.Ellipsis)
        (Strings.pad GlyphChars.Dash 2 3 ++ " " ++ (describe { type := "repo" }).2)
        Commands.openInRemote
        [{ provider := none, default := false },
         { provider := some { name := "GitHub", path := "org/repo" }, default := false }]
        (describe { type := "repo" }).1 none) :=
  ⟨(C10_build_empty_faults_headless_does_not { type := "repo" } none).1,
    (C10_build_empty_faults_headless_does_not { type := "repo" } none).2
      { provider := none, default := false }
      [{ provider := some { name := "GitHub", path := "org/repo" }, default := false }]
      (by decide) (by decide) rfl⟩

/-- Counterexample to C5 as stated: with a mixed remotes list (one remote
with a GitHub provider, one without a provider), per-remote option
building is not a silent exclusion — the provider dereference faults, so
`RemotesQuickPick.show` produces no item list at all (outer `none`, the
fault marker, for every presentation capability). -/
theorem C5_no_silent_exclusion_counterexample :
    RemotesQuickPick.show
        [{ provider := some { name := "GitHub", path := "org/repo" }, default := false },
         { provider := none, default := false }]
        "Choose a remote" { type := "repo" } false none
        (fun its _ => List.head? its) = none := rfl

/-- C5 (amended): a `GitRemote` lacking a provider is not surfaced as a
per-remote option, but not by silent exclusion: `RemotesQuickPick.show`
attempts to build one option for every remote, and building the option of
a provider-less remote faults on the `remote.provider!` dereference, so
the whole option list (and the show session) fails whenever any remote in
the list lacks a provider. -/
theorem C5_provider_missing_faults (remotes : List GitRemote)
    (resource : RemoteResource) (cb : Bool)
    (h : ∃ r ∈ remotes, r.provider = none) :
    buildPerRemoteItems remotes resource cb = none
    ∧ ∀ ph goBack picker,
      RemotesQuickPick.show remotes ph resource cb goBack picker = none := by
  have hmain : buildPerRemoteItems remotes resource cb = none := by
    induction remotes with
    | nil =>
      obtain ⟨r, hr, _⟩ := h
      exact absurd hr (List.not_mem_nil r)
    | cons a as ih =>
      obtain ⟨r, hr, hrp⟩ := h
      rcases List.mem_cons.mp hr with h1 | h1
      · subst h1
        simp [buildPerRemoteItems, OpenRemoteCommandQuickPickItem.build, hrp]
      · have hrec := ih ⟨r, h1, hrp⟩
        cases hb : OpenRemoteCommandQuickPickItem.build a resource cb with
        | none => simp [buildPerRemoteItems, hb]
        | some it => simp [buildPerRemoteItems, hb, hrec]
  exact ⟨hmain, fun ph goBack picker => by simp [RemotesQuickPick.show, hmain]⟩

/-- Witness for C5 (amended): the mixed GitHub/provider-less list faults
both in option building and in a concrete show session. -/
theorem C5_provider_missing_faults_witness :
    buildPerRemoteItems
        [{ provider := some { name := "GitHub", path := "org/repo" }, default := false },
         { provider := none, default := false }]
        { type := "repo" } false = none
    ∧ RemotesQuickPick.show
        [{ provider := some { name := "GitHub", path := "org/repo" }, default := false },
         { provider := none, default := false }]
        "Choose" { type := "repo" } false none
        (fun its _ => List.head? its) = none :=
  ⟨(C5_provider_missing_faults _ { type := "repo" } false
      ⟨{ provider := none, default := false }, by decide, rfl⟩).1,
    (C5_provider_missing_faults _ { type := "repo" } false
      ⟨{ provider := none, default := false }, by decide, rfl⟩).2
      "Choose" none (fun its _ => List.head? its)⟩

theorem buildPerRemoteItems_all (resource : RemoteResource) (cb : Bool)
    (remotes : List GitRemote) (hall : ∀ r ∈ remotes, r.provider ≠ none) :
    ∃ opts, buildPerRemoteItems remotes resource cb = some opts ∧
      opts.length = remotes.length ∧
      ∀ i (h1 : i < opts.length) (h2 : i < remotes.length),
        some (opts.get ⟨i, h1⟩) =
          OpenRemoteCommandQuickPickItem.build (remotes.get ⟨i, h2⟩) resource cb := by
  induction remotes with
  | nil =>
    exact ⟨[], rfl, rfl, fun i h1 h2 => absurd h1 (by simp)⟩
  | cons a as ih =>
    have ha : a.provider ≠ none := hall a (by simp)
    obtain ⟨opts, hopts, hlen, hpt⟩ := ih fun x hx => hall x (by simp [hx])
    cases hp : a.provider with
    | none => exact absurd hp ha
    | some p =>
      obtain ⟨it, hit⟩ : ∃ it, OpenRemoteCommandQuickPickItem.build a resource cb = some it := by
        simp only [OpenRemoteCommandQuickPickItem.build, hp]
        exact ⟨_, rfl⟩
      refine ⟨it :: opts, ?_, by simp [hlen], ?_⟩
      · simp [buildPerRemoteItems, hit, hopts]
      · intro i h1 h2
        cases i with
        | zero => simpa using hit.symm
        | succ n =>
          simp only [List.get_cons_succ]
          exact hpt n (by simpa using h1) (by simpa using h2)

/-- C8: whenever every remote has a provider (so that per-remote building
does not fault), the item list `RemotesQuickPick.show` hands to the
presentation capability is the back-navigation option (when supplied)
followed by exactly one per-remote option for each remote, in input list
order — element `i` of the built options is the option built from remote
`i`, with no sorting or reordering. -/
theorem C8_show_items_order (remotes : List GitRemote) (ph : String)
    (resource : RemoteResource) (cb : Bool)
    (goBack : Option CommandQuickPickItem)
    (picker : List CommandQuickPickItem → String → Option CommandQuickPickItem)
    (hall : ∀ r ∈ remotes, r.provider ≠ none) :
    ∃ opts, buildPerRemoteItems remotes resource cb = some opts ∧
      opts.length = remotes.length ∧
      (∀ i (h1 : i < opts.length) (h2 : i < remotes.length),
        some (opts.get ⟨i, h1⟩) =
          OpenRemoteCommandQuickPickItem.build (remotes.get ⟨i, h2⟩) resource cb) ∧
      RemotesQuickPick.show remotes ph resource cb goBack picker =
        some (picker (goBack.toList ++ opts) ph) := by
  obtain ⟨opts, hopts, hlen, hpt⟩ := buildPerRemoteItems_all resource cb remotes hall
  refine ⟨opts, hopts, hlen, hpt, ?_⟩
  cases goBack with
  | none => simp [RemotesQuickPick.show, hopts]
  | some g => simp [RemotesQuickPick.show, hopts]

/-- Witness for C8: two providered remotes plus a go-back option; the
capability receives the go-back option first, then the two per-remote
options in remote order. -/
theorem C8_show_items_order_witness :
    ∃ opts, buildPerRemoteItems
        [{ provider := some { name := "GitHub", path := "org/repo" }, default := false },
         { provider := some { name := "GitLab", path := "org/repo2" }, default := true }]
        { type := "repo" } false = some opts ∧
      opts.length = 2 ∧
      (∀ i (h1 : i < opts.length) (h2 : i < 2),
        some (opts.get ⟨i, h1⟩) =
          OpenRemoteCommandQuickPickItem.build
            (([{ provider := some { name := "GitHub", path := "org/repo" }, default := false },
               { provider := some { name := "GitLab", path := "org/repo2" }, default := true }] :
                List GitRemote).get ⟨i, h2⟩)
            { type := "repo" } false) ∧
      RemotesQuickPick.show
          [{ provider := some { name := "GitHub", path := "org/repo" }, default := false },
           { provider := some { name := "GitLab", path := "org/repo2" }, default := true }]
          "Choose" { type := "repo" } false (some (.plain "go back" ""))
          (fun its _ => List.head? its) =
        some ((fun its _ => List.head? its)
          ((some (CommandQuickPickItem.plain "go back" "")).toList ++ opts) "Choose") :=
  C8_show_items_order
    [{ provider := some { name := "GitHub", path := "org/repo" }, default := false },
     { provider := some { name := "GitLab", path := "org/repo2" }, default := true }]
    "Choose" { type := "repo" } false (some (.plain "go back" ""))
    (fun its _ => List.head? its) (by decide)

/-- C9: the show session returns the cancellation sentinel (`undefined`,
the inner `none`) exactly when the presentation capability returns no
selection, and otherwise returns exactly the item the capability chose
(the item is returned as a value; no execution of it is modelled or
performed). -/
theorem C9_show_passthrough (remotes : List GitRemote) (ph : String)
    (resource : RemoteResource) (cb : Bool)
    (goBack : Option CommandQuickPickItem)
    (picker : List CommandQuickPickItem → String → Option CommandQuickPickItem)
    (opts : List CommandQuickPickItem)
    (hopts : buildPerRemoteItems remotes resource cb = some opts) :
    (picker (goBack.toList ++ opts) ph = none →
      RemotesQuickPick.show remotes ph resource cb goBack picker = some none)
    ∧ (∀ it, picker (goBack.toList ++ opts) ph = some it →
      RemotesQuickPick.show remotes ph resource cb goBack picker = some (some it)) := by
  have hshow : RemotesQuickPick.show remotes ph resource cb goBack picker =
      some (picker (goBack.toList ++ opts) ph) := by
    cases goBack with
    | none => simp [RemotesQuickPick.show, hopts]
    | some g => simp [RemotesQuickPick.show, hopts]
  exact ⟨fun h => by rw [hshow, h], fun it h => by rw [hshow, h]⟩

/-- Witness for C9: with zero remotes (zero built options) plus a go-back
option, a capability that picks the first item makes the session return
exactly the go-back option; and the constant-`none` capability makes it
return the cancellation sentinel. -/
theorem C9_show_passthrough_witness :
    RemotesQuickPick.show [] "Choose" { type := "repo" } false
        (some (.plain "go back" "")) (fun its _ => List.head? its) =
      some (some (.plain "go back" "")) ∧
    RemotesQuickPick.show [] "Choose" { type := "repo" } false
        (some (.plain "go back" "")) (fun _ _ => none) = some none :=
  ⟨(C9_show_passthrough [] "Choose" { type := "repo" } false
      (some (.plain "go back" "")) (fun its _ => List.head? its) [] rfl).2
      (.plain "go back" "") rfl,
    (C9_show_passthrough [] "Choose" { type := "repo" } false
      (some (.plain "go back" "")) (fun _ _ => none) [] rfl).1 rfl⟩
